import Mathlib

/-!
# Role hierarchy and permission-resolution engine: a verification development

Shallow embedding of the role/permission subsystem of the repository
(`role_management.py` and `role_configurator.py`).

The persistent store is treated as an abstract relational collaborator, as
the specification prescribes: a table is a `List` of rows, a fetch that can
fail is an `Option` (the `none` case corresponds to the query raising, which
each source function catches in its `except` branch).  Timestamps are `Int`
and `CURRENT_TIMESTAMP` is an explicit `now` parameter.  Cosmetic columns
that no modelled operation reads (display names, colors, icons, opaque
JSON context) are omitted from the row structures.

Two schemas coexist in the source and are embedded separately:
* the flat schema of `RoleManager` (`roles`, `user_roles`,
  `role_permissions`, `permissions`);
* the hierarchical schema of `RoleConfigurator` (`role_hierarchy`,
  `permission_registry`, `role_permissions_mapping`,
  `user_role_assignments`).
-/

/-- SQL predicate `expires_at IS NULL OR expires_at > CURRENT_TIMESTAMP`. -/
def notExpired (now : Int) : Option Int → Bool
  | none => true
  | some t => decide (now < t)

/-! ## Flat schema of `role_management.py` (`RoleManager`) -/

/-- A row of the `roles` table (columns read by the modelled operations). -/
structure MgmtRole where
  role_id : Nat
  role_name : String
  priority : Int
  is_system : Bool
  is_active : Bool
  deriving DecidableEq

/-- A row of the `user_roles` table. -/
structure UserRole where
  user_id : Nat
  role_id : Nat
  expires_at : Option Int
  is_active : Bool
  deriving DecidableEq

/-- A row of the `role_permissions` table. -/
structure RolePerm where
  role_id : Nat
  permission_id : Nat
  deriving DecidableEq

/-- A row of the `permissions` table. -/
structure PermissionRow where
  permission_id : Nat
  permission_name : String
  deriving DecidableEq

/-- A row of the `permission_audit` table (columns written by the code). -/
structure MgmtAudit where
  user_id : Nat
  action : String
  target_type : String
  target_id : Nat
  permission_used : String
  deriving DecidableEq

/-- The state seen by `RoleManager`: its four tables, the audit table, and
a flag telling whether the store is reachable (`store_ok = false` makes
every query raise, which the source catches per call). -/
structure MgmtDB where
  roles : List MgmtRole
  user_roles : List UserRole
  role_permissions : List RolePerm
  permissions : List PermissionRow
  audit : List MgmtAudit
  store_ok : Bool
  deriving DecidableEq

/-- A fetch against the store: `none` models the query raising. -/
def runQuery {α : Type} (store_ok : Bool) (rows : α) : Option α :=
  if store_ok then some rows else none

/-- The row set of the permission query shared by `has_permission` and
`get_user_permissions`: join of `user_roles`, `roles`, `role_permissions`
and `permissions` filtered by user, activity and expiry. -/
def userPermList (db : MgmtDB) (now : Int) (uid : Nat) : List String :=
  db.user_roles.flatMap fun ur =>
    if ur.user_id == uid && ur.is_active && notExpired now ur.expires_at then
      db.roles.flatMap fun r =>
        if r.role_id == ur.role_id && r.is_active then
          db.role_permissions.flatMap fun rp =>
            if rp.role_id == r.role_id then
              db.permissions.flatMap fun p =>
                if p.permission_id == rp.permission_id then
                  [p.permission_name]
                else []
            else []
        else []
    else []

/-- Source `RoleManager.has_permission`: membership of the permission in the
user's flat permission row set; any store failure yields `false`. -/
def has_permission (db : MgmtDB) (now : Int) (uid : Nat) (perm : String) : Bool :=
  match runQuery db.store_ok (userPermList db now uid) with
  | none => false
  | some l => if l.isEmpty then false else l.contains perm

/-- Source `RoleManager.get_user_permissions`: the user's flat permission row set
(`set(...)` in the source; embedded as the row list, with set facts stated
through membership); any store failure yields the empty set. -/
def get_user_permissions (db : MgmtDB) (now : Int) (uid : Nat) : List String :=
  match runQuery db.store_ok (userPermList db now uid) with
  | none => []
  | some l => l

/-- The priorities of the user's active, unexpired roles (the row set
aggregated by `MAX` in `get_user_max_priority`). -/
def activePriorities (db : MgmtDB) (now : Int) (uid : Nat) : List Int :=
  db.user_roles.flatMap fun ur =>
    if ur.user_id == uid && ur.is_active && notExpired now ur.expires_at then
      db.roles.flatMap fun r =>
        if r.role_id == ur.role_id && r.is_active then [r.priority] else []
    else []

/-- Aggregate `MAX` over a result column: `none` for the empty set. -/
def maxList : List Int → Option Int
  | [] => none
  | x :: xs =>
    match maxList xs with
    | none => some x
    | some m => some (max x m)

/-- Source `RoleManager.get_user_max_priority`: max active role priority,
`0` when the user has none or the store fails. -/
def get_user_max_priority (db : MgmtDB) (now : Int) (uid : Nat) : Int :=
  match runQuery db.store_ok (maxList (activePriorities db now uid)) with
  | none => 0
  | some none => 0
  | some (some m) => m

/-- Outcome dictionary `{'success': ..., 'error': ...}` of the mutating
calls of `RoleManager`. -/
structure ActionResult where
  success : Bool
  error : Option String
  deriving DecidableEq

/-- Source `RoleManager.assign_role_to_user`: permission gate, role lookup
(active roles only), strict priority guard, conflict check, insert. -/
def assign_role_to_user (db : MgmtDB) (now : Int) (assigner_id uid : Nat)
    (role_name : String) (expires_at : Option Int) : ActionResult × MgmtDB :=
  if has_permission db now assigner_id "roles.assign" = false then
    (⟨false, some "Insufficient permissions to assign roles"⟩, db)
  else
    match db.roles.find? fun r => r.role_name == role_name && r.is_active with
    | none => (⟨false, some "Role not found"⟩, db)
    | some r =>
      if decide (get_user_max_priority db now assigner_id ≤ r.priority) then
        (⟨false, some "Cannot assign role with equal or higher priority"⟩, db)
      else if db.user_roles.any fun ur =>
          ur.user_id == uid && ur.role_id == r.role_id && ur.is_active then
        (⟨false, some "User already has this role"⟩, db)
      else
        (⟨true, none⟩,
         { db with
             user_roles := db.user_roles ++ [⟨uid, r.role_id, expires_at, true⟩],
             audit := db.audit ++ [⟨assigner_id, "role_assigned", "user", uid, "roles.assign"⟩] })

/-- Source `RoleManager.remove_role_from_user`: permission gate, role lookup (no
activity filter), the system-role guard that fires only for the role names
`owner` and `admin`, then the soft-delete `UPDATE`. -/
def remove_role_from_user (db : MgmtDB) (now : Int) (remover_id uid : Nat)
    (role_name : String) : ActionResult × MgmtDB :=
  if has_permission db now remover_id "roles.assign" = false then
    (⟨false, some "Insufficient permissions to remove roles"⟩, db)
  else
    match db.roles.find? fun r => r.role_name == role_name with
    | none => (⟨false, some "Role not found"⟩, db)
    | some r =>
      if r.is_system && (role_name == "owner" || role_name == "admin")
          && decide (get_user_max_priority db now remover_id ≤ r.priority) then
        (⟨false, some "Cannot remove system role with equal or higher priority"⟩, db)
      else
        (⟨true, none⟩,
         { db with
             user_roles := db.user_roles.map fun ur =>
               if ur.user_id == uid && ur.role_id == r.role_id && ur.is_active then
                 { ur with is_active := false }
               else ur,
             audit := db.audit ++ [⟨remover_id, "role_removed", "user", uid, "roles.assign"⟩] })

/-- Source `RoleManager.cleanup_expired_roles`: the periodic sweep flipping
expired active assignments to inactive. -/
def cleanup_expired_roles (db : MgmtDB) (now : Int) : MgmtDB :=
  { db with
      user_roles := db.user_roles.map fun ur =>
        if ur.is_active && (match ur.expires_at with
            | some t => decide (t < now)
            | none => false) then
          { ur with is_active := false }
        else ur }

/-! ## Hierarchical schema of `role_configurator.py` (`RoleConfigurator`) -/

/-- A row of the `role_hierarchy` table (columns read or written by the
modelled operations). -/
structure HRole where
  role_id : Nat
  role_name : String
  parent_role_id : Option Nat
  level : Nat
  priority : Int
  is_system : Bool
  is_active : Bool
  inherit_permissions : Bool
  deriving DecidableEq

/-- A row of the `permission_registry` table. -/
structure PermReg where
  permission_id : Nat
  permission_key : String
  deriving DecidableEq

/-- A row of the `role_permissions_mapping` table. -/
structure MapRow where
  role_id : Nat
  permission_id : Nat
  granted : Bool
  granted_by : Option Nat
  granted_at : Int
  expires_at : Option Int
  deriving DecidableEq

/-- A row of the `user_role_assignments` table. -/
structure AssignRow where
  user_id : Nat
  role_id : Nat
  expires_at : Option Int
  deriving DecidableEq

/-- A row of the `role_audit_log` table (fields the code always fills). -/
structure ConfigAudit where
  action_type : String
  role_id : Option Nat
  changed_by : Option Nat
  deriving DecidableEq

/-- The state seen by `RoleConfigurator`.  `next_role_id` models the
`SERIAL` sequence of `role_hierarchy.role_id`. -/
structure ConfigDB where
  role_hierarchy : List HRole
  permission_registry : List PermReg
  role_permissions_mapping : List MapRow
  user_role_assignments : List AssignRow
  audit : List ConfigAudit
  next_role_id : Nat
  store_ok : Bool
  deriving DecidableEq

/-- Single-row lookup `WHERE role_id = rid` on `role_hierarchy`. -/
def findRole (roles : List HRole) (rid : Nat) : Option HRole :=
  roles.find? fun r => r.role_id == rid

/-- The `role_inheritance` recursive CTE of
`RoleConfigurator.get_role_permissions`: the role itself, then parents,
continuing upward from a role exactly when that role's
`inherit_permissions` is true.  The SQL recursion is unbounded; the
embedding carries explicit fuel, which callers set to the table size, a
bound ample for any acyclic chain of distinct rows. -/
def inheritedRoleIds (roles : List HRole) : Nat → Nat → List Nat
  | 0, _ => []
  | fuel + 1, rid =>
    match findRole roles rid with
    | none => []
    | some r =>
      rid :: (if r.inherit_permissions then
          match r.parent_role_id with
          | some p => inheritedRoleIds roles fuel p
          | none => []
        else [])

/-- Source `RoleConfigurator.get_role_permissions`: keys of active, unexpired,
`granted = TRUE` mapping rows of the role and of its inheritance chain;
the empty set on store failure. -/
def get_role_permissions (db : ConfigDB) (now : Int) (rid : Nat) : List String :=
  match runQuery db.store_ok
      (inheritedRoleIds db.role_hierarchy db.role_hierarchy.length rid) with
  | none => []
  | some chain =>
    chain.flatMap fun rid' =>
      db.role_permissions_mapping.flatMap fun m =>
        if m.role_id == rid' && m.granted && notExpired now m.expires_at then
          db.permission_registry.flatMap fun p =>
            if p.permission_id == m.permission_id then [p.permission_key] else []
        else []

/-- Modelled from the spec: the user-level union of section 4.4 steps 1-3
(`effectivePermissions(userId) = union of C(R) over active assignments`).
The repository's `role_hierarchy` schema has per-role closures only
(`get_role_permissions`); no source function under `src/` joins them with
`user_role_assignments`, so the union over unexpired assignments is taken
from the spec's words. -/
def effectivePermissions (db : ConfigDB) (now : Int) (uid : Nat) : List String :=
  (db.user_role_assignments.filter fun a =>
      a.user_id == uid && notExpired now a.expires_at).flatMap fun a =>
    get_role_permissions db now a.role_id

/-- Modelled from the spec: `hasPermission(userId, key)` is pure set
membership in `effectivePermissions` (section 4.4 step 4). -/
def hasPermission (db : ConfigDB) (now : Int) (uid : Nat) (key : String) : Bool :=
  (effectivePermissions db now uid).contains key

/-- The `role_data` dictionary accepted by `RoleConfigurator.create_role`;
absent keys are `none` and take the source's `.get(...)` defaults. -/
structure RoleData where
  role_name : String
  parent_role_id : Option Nat
  level : Option Nat
  priority : Option Int
  inherit_permissions : Option Bool
  created_by : Option Nat

/-- Source `RoleConfigurator.create_role`: inserts the new `role_hierarchy` row
and returns its id.  A duplicate `role_name` (UNIQUE) or a dangling
`parent_role_id` (FOREIGN KEY) makes the insert raise, which the source
catches and turns into `None` with no row written.  The inserted level is
`role_data.get('level', 0)` - the caller's value or `0`. -/
def create_role (db : ConfigDB) (rd : RoleData) : Option Nat × ConfigDB :=
  if db.store_ok = false then (none, db)
  else if db.role_hierarchy.any fun r => r.role_name == rd.role_name then (none, db)
  else if (match rd.parent_role_id with
      | some p => (findRole db.role_hierarchy p).isNone
      | none => false) then (none, db)
  else
    let rid := db.next_role_id
    let newRole : HRole :=
      { role_id := rid
        role_name := rd.role_name
        parent_role_id := rd.parent_role_id
        level := rd.level.getD 0
        priority := rd.priority.getD 0
        is_system := false
        is_active := true
        inherit_permissions := rd.inherit_permissions.getD true }
    (some rid,
     { db with
         role_hierarchy := db.role_hierarchy ++ [newRole]
         next_role_id := rid + 1
         audit := db.audit ++ [⟨"create_role", some rid, rd.created_by⟩] })

/-- The `(role_id, permission_id)` key predicate of the mapping table's
UNIQUE constraint. -/
def matchKey (rid pid : Nat) (m : MapRow) : Bool :=
  m.role_id == rid && m.permission_id == pid

/-- The conflict action `DO UPDATE SET granted = TRUE,
granted_by = EXCLUDED.granted_by` on one row: it touches no other
column - in particular `granted_at` and `expires_at` stay. -/
def upsertRow (rid pid : Nat) (actor : Option Nat) (m : MapRow) : MapRow :=
  if matchKey rid pid m then { m with granted := true, granted_by := actor }
  else m

/-- The upsert of `assign_permissions_to_role`:
`INSERT ... ON CONFLICT (role_id, permission_id) DO UPDATE ...`.  A fresh
row takes the column defaults `granted_at = CURRENT_TIMESTAMP`,
`expires_at = NULL`; a conflicting row is updated in place. -/
def upsertMapping (l : List MapRow) (rid pid : Nat) (actor : Option Nat)
    (now : Int) : List MapRow :=
  if l.any (matchKey rid pid) then l.map (upsertRow rid pid actor)
  else l ++ [⟨rid, pid, true, actor, now, none⟩]

/-- Source `RoleConfigurator.assign_permissions_to_role`: resolves the keys in
the registry (returning `False` when none resolve), upserts one mapping
row per resolved key, appends an audit entry. -/
def assign_permissions_to_role (db : ConfigDB) (rid : Nat) (keys : List String)
    (assigned_by : Option Nat) (now : Int) : Bool × ConfigDB :=
  if db.store_ok = false then (false, db)
  else if (db.permission_registry.filter fun p =>
      keys.contains p.permission_key).isEmpty then (false, db)
  else
    let rpm := keys.foldl (fun acc k =>
      match db.permission_registry.find? (fun p => p.permission_key == k) with
      | some p => upsertMapping acc rid p.permission_id assigned_by now
      | none => acc) db.role_permissions_mapping
    (true,
     { db with
         role_permissions_mapping := rpm
         audit := db.audit ++ [⟨"assign_permissions", some rid, assigned_by⟩] })

/-- The `parent_chain` recursive CTE of
`RoleConfigurator._would_create_cycle`: the upward walk from a role,
capped by the CTE's `pc.depth < 10` guard, so it holds the start role and
at most its nearest nine ancestors. -/
def parentChain (roles : List HRole) : Nat → Nat → List Nat
  | 0, _ => []
  | fuel + 1, rid =>
    match findRole roles rid with
    | none => []
    | some r =>
      rid :: (match r.parent_role_id with
        | some p => parentChain roles fuel p
        | none => [])

/-- Source `RoleConfigurator._would_create_cycle`: true when the moved role
appears in the depth-capped upward walk from the proposed parent; a store
failure is answered `True` (assume a cycle, to be safe). -/
def would_create_cycle (db : ConfigDB) (rid new_parent : Nat) : Bool :=
  match runQuery db.store_ok (parentChain db.role_hierarchy 10 new_parent) with
  | none => true
  | some chain => chain.contains rid

/-- Python truthiness of the optional `new_parent_id` argument
(`if new_parent_id and ...`): `None` and `0` are falsy. -/
def truthyId : Option Nat → Bool
  | none => false
  | some n => !(n == 0)

/-- The depth of a role below its root along parent pointers, the quantity
the `role_levels` recursive CTE of `_update_role_levels` assigns: `0` for
a parentless row, one more than the parent's depth otherwise, `none` when
the walk exhausts its fuel or meets a missing row (a role on a cycle or
under one is reached by no walk from a root and keeps its old level). -/
def rootDistance (roles : List HRole) : Nat → Nat → Option Nat
  | 0, _ => none
  | fuel + 1, rid =>
    match findRole roles rid with
    | none => none
    | some r =>
      match r.parent_role_id with
      | none => some 0
      | some p => (rootDistance roles fuel p).map (· + 1)

/-- Source `RoleConfigurator._update_role_levels`: one `UPDATE` joining the
breadth-first `role_levels` CTE - every role reached from a parentless
root gets `level := ` its root distance, unreached rows keep theirs. -/
def update_role_levels (db : ConfigDB) : ConfigDB :=
  if db.store_ok = false then db
  else
    { db with
        role_hierarchy := db.role_hierarchy.map fun r =>
          match rootDistance db.role_hierarchy db.role_hierarchy.length r.role_id with
          | some n => { r with level := n }
          | none => r }

/-- Source `RoleConfigurator.update_role_hierarchy`: rejects when the truthy new
parent fails the cycle check, otherwise reads the old parent (for the
audit entry), repoints the role, recomputes levels and logs. -/
def update_role_hierarchy (db : ConfigDB) (rid : Nat) (new_parent : Option Nat)
    (updated_by : Option Nat) : Bool × ConfigDB :=
  if truthyId new_parent && would_create_cycle db rid (new_parent.getD 0) then
    (false, db)
  else
    match runQuery db.store_ok (findRole db.role_hierarchy rid) with
    | none => (false, db)
    | some _old =>
      let db1 : ConfigDB :=
        { db with
            role_hierarchy := db.role_hierarchy.map fun r =>
              if r.role_id == rid then { r with parent_role_id := new_parent } else r }
      let db2 := update_role_levels db1
      (true, { db2 with audit := db2.audit ++ [⟨"update_hierarchy", some rid, updated_by⟩] })

/-- The claim-side notion of descendancy: `iterParent roles k p = some r`
says the upward parent-pointer walk from `p` reaches `r` in exactly `k`
steps, every visited role existing in the table. -/
def iterParent (roles : List HRole) : Nat → Nat → Option Nat
  | 0, rid => if (findRole roles rid).isSome then some rid else none
  | k + 1, rid =>
    match findRole roles rid with
    | none => none
    | some r =>
      match r.parent_role_id with
      | none => none
      | some p => iterParent roles k p

/-! ## Helper lemmas -/

/-- Mapping a function that fixes every element is the identity. -/
theorem map_eq_self_of {α : Type} {l : List α} {f : α → α}
    (h : ∀ x ∈ l, f x = x) : l.map f = l := by
  induction l with
  | nil => rfl
  | cons a l ih =>
    simp only [List.map_cons]
    rw [h a (by simp), ih fun x hx => h x (by simp [hx])]

/-- The lookup `find?` commutes with a map that preserves the search predicate. -/
theorem find?_map_of_pred {α : Type} {l : List α} {f : α → α} {p : α → Bool}
    (h : ∀ a, p (f a) = p a) : (l.map f).find? p = (l.find? p).map f := by
  induction l with
  | nil => rfl
  | cons a l ih =>
    by_cases hp : p a = true
    · simp [List.find?_cons, h, hp]
    · simp only [Bool.not_eq_true] at hp
      simp [List.find?_cons, h, hp, ih]

/-- The selection `filter` commutes with a map that preserves the filter predicate. -/
theorem filter_map_of_pred {α : Type} {l : List α} {f : α → α} {p : α → Bool}
    (h : ∀ a, p (f a) = p a) : (l.map f).filter p = (l.filter p).map f := by
  induction l with
  | nil => rfl
  | cons a l ih =>
    by_cases hp : p a = true
    · simp [List.filter_cons, h, hp, ih]
    · simp only [Bool.not_eq_true] at hp
      simp [List.filter_cons, h, hp, ih]

/-- When role ids are distinct, looking a member row up by its id finds
that very row. -/
theorem findRole_of_mem_nodup {roles : List HRole} {r : HRole}
    (hnd : (roles.map HRole.role_id).Nodup) (hmem : r ∈ roles) :
    findRole roles r.role_id = some r := by
  induction roles with
  | nil => cases hmem
  | cons a l ih =>
    simp only [List.map_cons, List.nodup_cons] at hnd
    rcases List.mem_cons.mp hmem with h | h
    · subst h
      simp [findRole]
    · have hne : a.role_id ≠ r.role_id := by
        intro he
        exact hnd.1 (he ▸ List.mem_map_of_mem HRole.role_id h)
      simpa [findRole, List.find?_cons, hne] using ih hnd.2 h

/-- The depth-capped upward walk contains exactly the roles reached by
some number of parent steps below the cap. -/
theorem mem_parentChain_iff {roles : List HRole} :
    ∀ {fuel p r}, r ∈ parentChain roles fuel p ↔
      ∃ k, k < fuel ∧ iterParent roles k p = some r := by
  intro fuel
  induction fuel with
  | zero => intro p r; simp [parentChain]
  | succ fuel ih =>
    intro p r
    cases hf : findRole roles p with
    | none =>
      simp only [parentChain, hf, List.not_mem_nil, false_iff, not_exists]
      intro k
      cases k with
      | zero => simp [iterParent, hf]
      | succ k => simp [iterParent, hf]
    | some rr =>
      cases hpar : rr.parent_role_id with
      | none =>
        simp only [parentChain, hf, hpar, List.mem_singleton]
        constructor
        · rintro rfl
          exact ⟨0, Nat.succ_pos _, by simp [iterParent, hf]⟩
        · rintro ⟨k, -, hk⟩
          cases k with
          | zero =>
            have : p = r := by simpa [iterParent, hf] using hk
            exact this.symm
          | succ k => simp [iterParent, hf, hpar] at hk
      | some q =>
        simp only [parentChain, hf, hpar, List.mem_cons, ih]
        constructor
        · rintro (rfl | ⟨k, hk, hit⟩)
          · exact ⟨0, Nat.succ_pos _, by simp [iterParent, hf]⟩
          · exact ⟨k + 1, Nat.succ_lt_succ hk, by simpa [iterParent, hf, hpar] using hit⟩
        · rintro ⟨k, hk, hit⟩
          cases k with
          | zero =>
            left
            have : p = r := by simpa [iterParent, hf] using hit
            exact this.symm
          | succ k =>
            right
            exact ⟨k, Nat.lt_of_succ_lt_succ hk, by simpa [iterParent, hf, hpar] using hit⟩

/-- Root distance is preserved by adding fuel. -/
theorem rootDistance_mono {roles : List HRole} :
    ∀ {fuel fuel' rid n}, fuel ≤ fuel' →
      rootDistance roles fuel rid = some n → rootDistance roles fuel' rid = some n := by
  intro fuel
  induction fuel with
  | zero => intro fuel' rid n _ h; simp [rootDistance] at h
  | succ fuel ih =>
    intro fuel' rid n hle h
    obtain ⟨fuel'', rfl⟩ : ∃ f, fuel' = f + 1 :=
      ⟨fuel' - 1, by omega⟩
    cases hf : findRole roles rid with
    | none => simp [rootDistance, hf] at h
    | some r =>
      cases hpar : r.parent_role_id with
      | none => simpa [rootDistance, hf, hpar] using h
      | some p =>
        simp only [rootDistance, hf, hpar, Option.map_eq_some'] at h ⊢
        obtain ⟨m, hm, rfl⟩ := h
        exact ⟨m, ih (by omega) hm, rfl⟩

/-! ## Concrete states used by witnesses and counterexamples -/

/-- Builder for `role_hierarchy` rows with default priority and flags. -/
def mkHRole (rid : Nat) (name : String) (parent : Option Nat) (lvl : Nat)
    (inh : Bool) : HRole :=
  { role_id := rid, role_name := name, parent_role_id := parent, level := lvl,
    priority := 0, is_system := false, is_active := true,
    inherit_permissions := inh }

/-- The P3 scenario state: chain `roleA <- roleB <- roleC`, permission
`perm.x` granted only to `roleA`, one unexpired assignment of `roleC`;
`inhB` is `roleB`'s `inherit_permissions` flag. -/
def chainDB (inhB : Bool) (uid : Nat) : ConfigDB :=
  { role_hierarchy :=
      [mkHRole 1 "roleA" none 0 true,
       mkHRole 2 "roleB" (some 1) 1 inhB,
       mkHRole 3 "roleC" (some 2) 2 true]
    permission_registry := [⟨1, "perm.x"⟩]
    role_permissions_mapping := [⟨1, 1, true, none, 0, none⟩]
    user_role_assignments := [⟨uid, 3, none⟩]
    audit := []
    next_role_id := 4
    store_ok := true }

/-- An eleven-role chain `1 <- 2 <- ... <- 11` (role `i + 1` has parent
`i`), deep enough to escape the cycle check's depth cap. -/
def elevenDB : ConfigDB :=
  { role_hierarchy :=
      (List.range 11).map fun i =>
        mkHRole (i + 1) (toString (i + 1)) (if i = 0 then none else some i) i true
    permission_registry := []
    role_permissions_mapping := []
    user_role_assignments := []
    audit := []
    next_role_id := 12
    store_ok := true }

/-- One role holding one granted mapping row for `perm.x` whose
`granted_by` is user 1 and whose `expires_at` is timestamp 99. -/
def regrantDB : ConfigDB :=
  { role_hierarchy := [mkHRole 1 "r" none 0 true]
    permission_registry := [⟨1, "perm.x"⟩]
    role_permissions_mapping := [⟨1, 1, true, some 1, 0, some 99⟩]
    user_role_assignments := []
    audit := []
    next_role_id := 2
    store_ok := true }

/-- A single parentless role, the parent of the role created in the level
counterexample. -/
def rootOnlyDB : ConfigDB :=
  { role_hierarchy := [mkHRole 1 "root" none 0 true]
    permission_registry := []
    role_permissions_mapping := []
    user_role_assignments := []
    audit := []
    next_role_id := 2
    store_ok := true }

/-- A `create_role` payload naming role 1 as parent and carrying no
`level` key. -/
def childData : RoleData :=
  { role_name := "child", parent_role_id := some 1, level := none,
    priority := none, inherit_permissions := none, created_by := none }

/-- A configurator state whose store is unreachable. -/
def deadConfigDB : ConfigDB :=
  { role_hierarchy := [mkHRole 1 "r1" none 0 true, mkHRole 2 "r2" none 0 true]
    permission_registry := []
    role_permissions_mapping := []
    user_role_assignments := []
    audit := []
    next_role_id := 3
    store_ok := false }

/-- Flat-schema state: actor 10 holds role `boss` (priority 50) granting
`roles.assign`; target roles of priority 50, 49; a non-`owner`/`admin`
system role `superuser` of priority 100 held by user 20; a system role
`owner` of priority 100. -/
def mgmtDB : MgmtDB :=
  { roles :=
      [⟨1, "boss", 50, true, true⟩,
       ⟨2, "target50", 50, false, true⟩,
       ⟨3, "target49", 49, false, true⟩,
       ⟨4, "superuser", 100, true, true⟩,
       ⟨5, "owner", 100, true, true⟩],
    user_roles := [⟨10, 1, none, true⟩, ⟨20, 4, none, true⟩],
    role_permissions := [⟨1, 1⟩],
    permissions := [⟨1, "roles.assign"⟩],
    audit := [],
    store_ok := true }

/-- Flat-schema state with rows that would grant `roles.assign`, but an
unreachable store. -/
def deadMgmtDB : MgmtDB :=
  { roles := [⟨1, "boss", 50, true, true⟩],
    user_roles := [⟨10, 1, none, true⟩],
    role_permissions := [⟨1, 1⟩],
    permissions := [⟨1, "roles.assign"⟩],
    audit := [],
    store_ok := false }

/-! ## C8: store failure denies -/

/-- C8: whenever the store raises during the permission query,
`has_permission` answers `false` and `get_user_permissions` answers the
empty set - for every state, user and key the failure yields deny, never
a grant. -/
theorem store_failure_denies (db : MgmtDB) (now : Int) (uid : Nat) (perm : String)
    (h : db.store_ok = false) :
    has_permission db now uid perm = false ∧ get_user_permissions db now uid = [] := by
  constructor <;> simp [has_permission, get_user_permissions, runQuery, h]

/-- C8 witness: a state whose rows would grant `roles.assign` still
denies when the store is down. -/
theorem store_failure_denies_witness :
    has_permission deadMgmtDB 0 10 "roles.assign" = false ∧
    get_user_permissions deadMgmtDB 0 10 = [] :=
  store_failure_denies deadMgmtDB 0 10 "roles.assign" rfl

/-! ## C10: cycle check fails closed -/

/-- C10: when the store query inside the cycle check raises, the check
reports a cycle, and the reparent call returns `false` with the state -
in particular the role's parent pointer - untouched. -/
theorem cycle_check_fail_closed (db : ConfigDB) (rid : Nat) (np : Option Nat)
    (ub : Option Nat) (h : db.store_ok = false) (ht : truthyId np = true) :
    would_create_cycle db rid (np.getD 0) = true ∧
    update_role_hierarchy db rid np ub = (false, db) := by
  have hc : would_create_cycle db rid (np.getD 0) = true := by
    simp [would_create_cycle, runQuery, h]
  exact ⟨hc, by simp [update_role_hierarchy, ht, hc]⟩

/-- C10 witness: a dead-store state rejects a concrete reparent and
leaves the state unchanged. -/
theorem cycle_check_fail_closed_witness :
    would_create_cycle deadConfigDB 1 ((some 2 : Option Nat).getD 0) = true ∧
    update_role_hierarchy deadConfigDB 1 (some 2) none = (false, deadConfigDB) :=
  cycle_check_fail_closed deadConfigDB 1 (some 2) none rfl rfl

/-! ## C2: strict priority guard on role assignment -/

/-- C2: an accepted assignment implies the actor holds `roles.assign` and
strictly out-prioritises the role; equal priorities are refused with the
insufficient-authority error; a role one point below the actor's maximum
passes the priority check. -/
theorem assign_role_priority_guard :
    (∀ (db : MgmtDB) (now : Int) (assigner uid : Nat) (rn : String) (exp : Option Int),
       (assign_role_to_user db now assigner uid rn exp).1.success = true →
       has_permission db now assigner "roles.assign" = true ∧
       ∃ r, db.roles.find? (fun x => x.role_name == rn && x.is_active) = some r ∧
         r.priority < get_user_max_priority db now assigner) ∧
    (∀ (db : MgmtDB) (now : Int) (assigner uid : Nat) (rn : String) (exp : Option Int)
       (r : MgmtRole),
       has_permission db now assigner "roles.assign" = true →
       db.roles.find? (fun x => x.role_name == rn && x.is_active) = some r →
       get_user_max_priority db now assigner = r.priority →
       (assign_role_to_user db now assigner uid rn exp).1 =
         ⟨false, some "Cannot assign role with equal or higher priority"⟩) ∧
    (∀ (db : MgmtDB) (now : Int) (assigner uid : Nat) (rn : String) (exp : Option Int)
       (r : MgmtRole),
       has_permission db now assigner "roles.assign" = true →
       db.roles.find? (fun x => x.role_name == rn && x.is_active) = some r →
       r.priority = 49 → get_user_max_priority db now assigner = 50 →
       (assign_role_to_user db now assigner uid rn exp).1.error ≠
         some "Cannot assign role with equal or higher priority") := by
  refine ⟨?_, ?_, ?_⟩
  · intro db now assigner uid rn exp h
    cases hhp : has_permission db now assigner "roles.assign" with
    | false => simp [assign_role_to_user, hhp] at h
    | true =>
      cases hfind : db.roles.find? (fun x => x.role_name == rn && x.is_active) with
      | none => simp [assign_role_to_user, hhp, hfind] at h
      | some r =>
        refine ⟨rfl, r, rfl, ?_⟩
        by_cases hpr : get_user_max_priority db now assigner ≤ r.priority
        · simp [assign_role_to_user, hhp, hfind, hpr] at h
        · exact not_le.mp hpr
  · intro db now assigner uid rn exp r hhp hfind heq
    have hle : get_user_max_priority db now assigner ≤ r.priority := le_of_eq heq
    simp [assign_role_to_user, hhp, hfind, hle]
  · intro db now assigner uid rn exp r hhp hfind h49 h50 h
    have hnle : ¬ get_user_max_priority db now assigner ≤ r.priority := by
      rw [h49, h50]; decide
    by_cases hconflict : (db.user_roles.any fun ur =>
        ur.user_id == uid && ur.role_id == r.role_id && ur.is_active) = true
    · simp [assign_role_to_user, hhp, hfind, hnle, hconflict] at h
    · simp [assign_role_to_user, hhp, hfind, hnle, hconflict] at h

/-- C2 witness: actor 10 (maximum priority 50) fails on the priority-50
role with the insufficient-authority error. -/
theorem assign_role_priority_guard_witness :
    (assign_role_to_user mgmtDB 0 10 20 "target50" none).1 =
      ⟨false, some "Cannot assign role with equal or higher priority"⟩ :=
  assign_role_priority_guard.2.1 mgmtDB 0 10 20 "target50" none
    ⟨2, "target50", 50, false, true⟩ (by decide) (by decide) (by decide)

/-! ## C4: the system-role removal guard -/

/-- C4 counterexample: `superuser` is a system role of priority 100, far
above actor 10's maximum of 50, the actor holds `roles.assign`, yet
removal succeeds and the assignment of user 20 is flipped inactive - the
guard in the source checks only the role names `owner` and `admin`, not
`is_system` at large. -/
theorem remove_system_role_guard_cex :
    mgmtDB.roles.find? (fun x => x.role_name == "superuser")
      = some ⟨4, "superuser", 100, true, true⟩ ∧
    has_permission mgmtDB 0 10 "roles.assign" = true ∧
    get_user_max_priority mgmtDB 0 10 ≤ 100 ∧
    (remove_role_from_user mgmtDB 0 10 20 "superuser").1.success = true ∧
    (remove_role_from_user mgmtDB 0 10 20 "superuser").2.user_roles
      = [⟨10, 1, none, true⟩, ⟨20, 4, none, false⟩] := by
  refine ⟨by decide, by decide, by decide, by decide, by decide⟩

/-- C4 amended: the priority guard on removal protects exactly the system
roles named `owner` or `admin` - for those, an actor whose maximum active
priority does not exceed the role's priority fails with the
insufficient-authority error and the state is unchanged; for any role
with another name the guard never fires and removal succeeds. -/
theorem remove_system_role_name_guard :
    (∀ (db : MgmtDB) (now : Int) (remover uid : Nat) (rn : String) (r : MgmtRole),
       has_permission db now remover "roles.assign" = true →
       db.roles.find? (fun x => x.role_name == rn) = some r →
       r.is_system = true → (rn = "owner" ∨ rn = "admin") →
       get_user_max_priority db now remover ≤ r.priority →
       remove_role_from_user db now remover uid rn =
         (⟨false, some "Cannot remove system role with equal or higher priority"⟩, db)) ∧
    (∀ (db : MgmtDB) (now : Int) (remover uid : Nat) (rn : String) (r : MgmtRole),
       has_permission db now remover "roles.assign" = true →
       db.roles.find? (fun x => x.role_name == rn) = some r →
       rn ≠ "owner" → rn ≠ "admin" →
       (remove_role_from_user db now remover uid rn).1.success = true) := by
  constructor
  · intro db now remover uid rn r hhp hfind hsys hname hle
    have hguard : (r.is_system && (rn == "owner" || rn == "admin")
        && decide (get_user_max_priority db now remover ≤ r.priority)) = true := by
      rcases hname with h | h <;> simp [hsys, h, hle]
    simp [remove_role_from_user, hhp, hfind, hguard]
  · intro db now remover uid rn r hhp hfind hno hna
    have hguard : (r.is_system && (rn == "owner" || rn == "admin")
        && decide (get_user_max_priority db now remover ≤ r.priority)) = false := by
      simp [hno, hna]
    simp [remove_role_from_user, hhp, hfind, hguard]

/-- C4 witness: removing the system role `owner` (priority 100) by actor
10 (maximum 50) fails with the insufficient-authority error. -/
theorem remove_system_role_name_guard_witness :
    remove_role_from_user mgmtDB 0 10 20 "owner" =
      (⟨false, some "Cannot remove system role with equal or higher priority"⟩, mgmtDB) :=
  remove_system_role_name_guard.1 mgmtDB 0 10 20 "owner"
    ⟨5, "owner", 100, true, true⟩ (by decide) (by decide) rfl (Or.inl rfl) (by decide)

/-! ## C9: removing a role the user does not hold -/

/-- C9: when the actor passes the permission gate and the (name-scoped)
system-role guard, and the target user has no active assignment row for
the role, `remove_role_from_user` still reports success and the stored
assignments are untouched. -/
theorem remove_absent_role_success
    (db : MgmtDB) (now : Int) (remover uid : Nat) (rn : String) (r : MgmtRole)
    (hhp : has_permission db now remover "roles.assign" = true)
    (hfind : db.roles.find? (fun x => x.role_name == rn) = some r)
    (hguard : (r.is_system && (rn == "owner" || rn == "admin")
        && decide (get_user_max_priority db now remover ≤ r.priority)) = false)
    (habs : ∀ ur ∈ db.user_roles,
       (ur.user_id == uid && ur.role_id == r.role_id && ur.is_active) = false) :
    (remove_role_from_user db now remover uid rn).1.success = true ∧
    (remove_role_from_user db now remover uid rn).2.user_roles = db.user_roles := by
  constructor
  · simp [remove_role_from_user, hhp, hfind, hguard]
  · have hmap : (db.user_roles.map fun ur =>
        if ur.user_id == uid && ur.role_id == r.role_id && ur.is_active then
          { ur with is_active := false }
        else ur) = db.user_roles :=
      map_eq_self_of fun ur hur =>
        if_neg (by rw [habs ur hur]; exact Bool.false_ne_true)
    simp only [remove_role_from_user, hhp, hfind, hguard]
    simp only [Bool.false_eq_true, if_false, reduceCtorEq]
    exact hmap

/-- C9 witness: user 20 does not hold `target49`; removal by actor 10
reports success and leaves the assignment table as it was. -/
theorem remove_absent_role_success_witness :
    (remove_role_from_user mgmtDB 0 10 20 "target49").1.success = true ∧
    (remove_role_from_user mgmtDB 0 10 20 "target49").2.user_roles = mgmtDB.user_roles :=
  remove_absent_role_success mgmtDB 0 10 20 "target49" ⟨3, "target49", 49, false, true⟩
    (by decide) (by decide) (by decide) (by decide)

/-! ## C6: expired assignments contribute nothing -/

/-- A `flatMap` is unchanged by a row map that preserves every row's
contribution. -/
theorem flatMap_map_eq {α β : Type} {l : List α} {f : α → α} {g : α → List β}
    (h : ∀ x ∈ l, g (f x) = g x) : (l.map f).flatMap g = l.flatMap g := by
  induction l with
  | nil => rfl
  | cons a l ih =>
    simp only [List.map_cons, List.flatMap_cons]
    rw [h a (by simp), ih fun x hx => h x (by simp [hx])]

/-- An assignment row expired in the past fails the read filter. -/
theorem expired_row_filtered (uid : Nat) {asg : UserRole} {now t : Int}
    (hexp : asg.expires_at = some t) (hlt : t < now) :
    (asg.user_id == uid && asg.is_active && notExpired now asg.expires_at) = false := by
  have : notExpired now asg.expires_at = false := by
    simp [hexp, notExpired, not_lt.mpr (le_of_lt hlt)]
  simp [this]

/-- C6: an assignment whose `expires_at` lies in the past contributes
nothing - dropping the row changes neither `get_user_permissions` nor
`has_permission`, for any position of the row, any activity flag (so
swept or unswept) and any store condition; and the sweep itself changes
no read: `cleanup_expired_roles` leaves `get_user_permissions` intact on
every state. -/
theorem expired_assignment_inert
    (roles : List MgmtRole) (l1 l2 : List UserRole) (asg : UserRole)
    (rps : List RolePerm) (perms : List PermissionRow) (audit : List MgmtAudit)
    (sok : Bool) (now t : Int) (uid : Nat) (p : String)
    (hexp : asg.expires_at = some t) (hlt : t < now) :
    get_user_permissions ⟨roles, l1 ++ asg :: l2, rps, perms, audit, sok⟩ now uid
      = get_user_permissions ⟨roles, l1 ++ l2, rps, perms, audit, sok⟩ now uid ∧
    has_permission ⟨roles, l1 ++ asg :: l2, rps, perms, audit, sok⟩ now uid p
      = has_permission ⟨roles, l1 ++ l2, rps, perms, audit, sok⟩ now uid p ∧
    (∀ db : MgmtDB,
      get_user_permissions (cleanup_expired_roles db now) now uid
        = get_user_permissions db now uid) := by
  have hrow := expired_row_filtered uid hexp hlt
  have hl : userPermList ⟨roles, l1 ++ asg :: l2, rps, perms, audit, sok⟩ now uid
      = userPermList ⟨roles, l1 ++ l2, rps, perms, audit, sok⟩ now uid := by
    simp only [userPermList, List.flatMap_append, List.flatMap_cons]
    rw [if_neg (by rw [hrow]; exact Bool.false_ne_true)]
    simp
  refine ⟨?_, ?_, ?_⟩
  · simp only [get_user_permissions, hl]
  · simp only [has_permission, hl]
  · intro db
    have hswept : userPermList (cleanup_expired_roles db now) now uid
        = userPermList db now uid := by
      simp only [userPermList, cleanup_expired_roles]
      refine flatMap_map_eq fun ur _ => ?_
      by_cases hs : (ur.is_active && (match ur.expires_at with
          | some t' => decide (t' < now)
          | none => false)) = true
      · have hold : (ur.user_id == uid && ur.is_active
            && notExpired now ur.expires_at) = false := by
          rcases Bool.and_eq_true_iff.mp hs with ⟨-, hm⟩
          cases he : ur.expires_at with
          | none => rw [he] at hm; simp at hm
          | some t' =>
            rw [he] at hm
            have ht' : t' < now := by simpa using hm
            have hne : notExpired now (some t') = false := by
              simp [notExpired, not_lt.mpr (le_of_lt ht')]
            rw [hne, Bool.and_false]
        rw [if_pos hs]
        simp [hold]
      · rw [if_neg hs]
    simp only [get_user_permissions, cleanup_expired_roles] at hswept ⊢
    rw [hswept]

/-- C6 witness: a role assignment of user 7 that expired at time 5 grants
nothing at time 10, swept or not. -/
theorem expired_assignment_inert_witness :
    get_user_permissions ⟨[⟨1, "user", 10, false, true⟩], [] ++ ⟨7, 1, some 5, true⟩ :: [],
        [⟨1, 1⟩], [⟨1, "trading.basic"⟩], [], true⟩ 10 7
      = get_user_permissions ⟨[⟨1, "user", 10, false, true⟩], [] ++ [],
        [⟨1, 1⟩], [⟨1, "trading.basic"⟩], [], true⟩ 10 7 ∧
    has_permission ⟨[⟨1, "user", 10, false, true⟩], [] ++ ⟨7, 1, some 5, true⟩ :: [],
        [⟨1, 1⟩], [⟨1, "trading.basic"⟩], [], true⟩ 10 7 "trading.basic"
      = has_permission ⟨[⟨1, "user", 10, false, true⟩], [] ++ [],
        [⟨1, 1⟩], [⟨1, "trading.basic"⟩], [], true⟩ 10 7 "trading.basic" ∧
    (∀ db : MgmtDB,
      get_user_permissions (cleanup_expired_roles db 10) 10 7
        = get_user_permissions db 10 7) :=
  expired_assignment_inert [⟨1, "user", 10, false, true⟩] [] [] ⟨7, 1, some 5, true⟩
    [⟨1, 1⟩] [⟨1, "trading.basic"⟩] [] true 10 5 7 "trading.basic" rfl (by decide)

/-! ## C1: inheritance along the chain, stopped by the inherit flag -/

/-- C1: in the chain `roleA <- roleB <- roleC` with `inherit_permissions`
true throughout and `perm.x` granted only to `roleA`, a user assigned
only `roleC` has `perm.x`; flipping `roleB.inherit_permissions` to false
makes the same check false - for every user id and every evaluation
time. -/
theorem inheritance_chain_permission (now : Int) (uid : Nat) :
    hasPermission (chainDB true uid) now uid "perm.x" = true ∧
    hasPermission (chainDB false uid) now uid "perm.x" = false := by
  constructor <;>
    simp [hasPermission, effectivePermissions, get_role_permissions, chainDB,
      mkHRole, runQuery, inheritedRoleIds, findRole, notExpired, List.filter,
      List.flatMap]

/-- C1 witness: the chain check at user 7, time 0. -/
theorem inheritance_chain_permission_witness :
    hasPermission (chainDB true 7) 0 7 "perm.x" = true ∧
    hasPermission (chainDB false 7) 0 7 "perm.x" = false :=
  inheritance_chain_permission 0 7

/-! ## C3: the cycle check and its depth cap -/

/-- C3 counterexample: in the eleven-role chain, role 11 is a descendant
of role 1 (role 1 is reached from role 11 in ten parent steps), yet
`would_create_cycle 1 11` answers false because the walk stops at depth
10; the reparent of role 1 under role 11 is accepted, and afterwards the
parent-pointer walk from role 1 returns to role 1 - a cycle. -/
theorem cycle_check_depth_cap_cex :
    would_create_cycle elevenDB 1 11 = false ∧
    iterParent elevenDB.role_hierarchy 10 11 = some 1 ∧
    (update_role_hierarchy elevenDB 1 (some 11) none).1 = true ∧
    iterParent (update_role_hierarchy elevenDB 1 (some 11) none).2.role_hierarchy 11 1
      = some 1 := by
  refine ⟨by decide, by decide, by decide, by decide⟩

/-- C3 amended: `would_create_cycle r p` answers true exactly when `r` is
reached from `p` in fewer than ten upward parent steps - the proposed
parent itself, or one of its nearest nine ancestors; a deeper descendant
relation is missed (see the counterexample), so an accepted reparent can
close a cycle. -/
theorem cycle_check_characterization (db : ConfigDB) (rid p : Nat)
    (hok : db.store_ok = true) :
    would_create_cycle db rid p = true ↔
      ∃ k, k < 10 ∧ iterParent db.role_hierarchy k p = some rid := by
  have hchain : would_create_cycle db rid p
      = (parentChain db.role_hierarchy 10 p).contains rid := by
    simp [would_create_cycle, runQuery, hok]
  rw [hchain]
  constructor
  · intro h
    exact mem_parentChain_iff.mp (List.elem_iff.mp h)
  · intro h
    exact List.elem_iff.mpr (mem_parentChain_iff.mpr h)

/-- C3 witness: the characterization instantiated on the eleven-role
chain for moving role 2 under role 5. -/
theorem cycle_check_characterization_witness :
    would_create_cycle elevenDB 2 5 = true ↔
      ∃ k, k < 10 ∧ iterParent elevenDB.role_hierarchy k 5 = some 2 :=
  cycle_check_characterization elevenDB 2 5 rfl

/-! ## C5: levels at creation and after the recompute -/

/-- C5 counterexample: creating `child` under the level-0 role `root`
with no `level` key in the payload stores level 0, not
`parent.level + 1 = 1`. -/
theorem create_role_level_cex :
    (create_role rootOnlyDB childData).1 = some 2 ∧
    ((create_role rootOnlyDB childData).2.role_hierarchy.map fun r =>
        (r.role_id, r.level)) = [(1, 0), (2, 0)] ∧
    ¬ ((0 : Nat) = 0 + 1) := by
  refine ⟨by decide, by decide, by decide⟩

/-- C5 amended: `create_role` stores the caller-supplied `level` value
(default 0) whether or not a parent is given, so the level invariant can
fail right after a create; the recompute `update_role_levels`, run after
every accepted reparent, re-establishes `level(R) = 0` for parentless `R`
and `level(R) = level(parent(R)) + 1` for every role reached from a
parentless root (given distinct role ids). -/
theorem role_level_behavior :
    (∀ (db : ConfigDB) (rd : RoleData) (rid : Nat) (db' : ConfigDB),
       create_role db rd = (some rid, db') →
       ∃ r, r ∈ db'.role_hierarchy ∧ r.role_id = rid ∧
         r.level = rd.level.getD 0 ∧ r.parent_role_id = rd.parent_role_id) ∧
    (∀ db : ConfigDB, db.store_ok = true →
       (db.role_hierarchy.map HRole.role_id).Nodup →
       ∀ r', r' ∈ (update_role_levels db).role_hierarchy →
       (rootDistance db.role_hierarchy db.role_hierarchy.length r'.role_id).isSome = true →
       (r'.parent_role_id = none → r'.level = 0) ∧
       (∀ p, r'.parent_role_id = some p →
          ∃ pr, findRole (update_role_levels db).role_hierarchy p = some pr ∧
            r'.level = pr.level + 1)) := by
  constructor
  · intro db rd rid db' h
    by_cases hok : db.store_ok = false
    · simp [create_role, hok] at h
    · have hok' : db.store_ok = true := by
        revert hok; cases db.store_ok <;> simp
      by_cases hdup : (db.role_hierarchy.any fun r => r.role_name == rd.role_name) = true
      · simp [create_role, hok', hdup] at h
      · by_cases hpar : (match rd.parent_role_id with
            | some p => (findRole db.role_hierarchy p).isNone
            | none => false) = true
        · simp [create_role, hok', hdup, hpar] at h
        · rw [create_role, if_neg (by simp [hok']), if_neg hdup, if_neg hpar] at h
          obtain ⟨hrid, hdb'⟩ := Prod.mk.injEq .. ▸ h
          refine ⟨HRole.mk db.next_role_id rd.role_name rd.parent_role_id
            (rd.level.getD 0) (rd.priority.getD 0) false true
            (rd.inherit_permissions.getD true), ?_, ?_, rfl, rfl⟩
          · rw [← hdb']
            simp
          · simpa using hrid
  · intro db hok hnd r' hr' hsome
    have hmapdef : (update_role_levels db).role_hierarchy
        = db.role_hierarchy.map fun r =>
            match rootDistance db.role_hierarchy db.role_hierarchy.length r.role_id with
            | some n => { r with level := n }
            | none => r := by
      simp [update_role_levels, hok]
    rw [hmapdef] at hr'
    obtain ⟨r, hrmem, hfr⟩ := List.mem_map.mp hr'
    have hid : r'.role_id = r.role_id := by
      rw [← hfr]
      cases hcase : rootDistance db.role_hierarchy db.role_hierarchy.length r.role_id <;>
        simp [hcase]
    rw [hid] at hsome
    obtain ⟨n, hn⟩ := Option.isSome_iff_exists.mp hsome
    have hfr' : r' = { r with level := n } := by
      rw [← hfr, hn]
    obtain ⟨L, hL⟩ : ∃ L, db.role_hierarchy.length = L + 1 := by
      have hlen : 0 < db.role_hierarchy.length :=
        List.length_pos.mpr (List.ne_nil_of_mem hrmem)
      exact ⟨db.role_hierarchy.length - 1, by omega⟩
    have hfind : findRole db.role_hierarchy r.role_id = some r :=
      findRole_of_mem_nodup hnd hrmem
    rw [hL] at hn
    rw [rootDistance, hfind] at hn
    have hn2 : (match r.parent_role_id with
        | none => some 0
        | some p => (rootDistance db.role_hierarchy L p).map (· + 1)) = some n := hn
    cases hparent : r.parent_role_id with
    | none =>
      rw [hparent] at hn2
      have hn0 : n = 0 := by simpa using hn2.symm
      constructor
      · intro _
        rw [hfr', hn0]
      · intro p hp
        rw [hfr'] at hp
        simp [hparent] at hp
    | some q =>
      rw [hparent] at hn2
      obtain ⟨m, hmq, hnm⟩ := Option.map_eq_some'.mp hn2
      have hmqL : rootDistance db.role_hierarchy db.role_hierarchy.length q = some m := by
        rw [hL]
        exact rootDistance_mono (Nat.le_succ L) hmq
      obtain ⟨L', hL'⟩ : ∃ L', L = L' + 1 := by
        cases L with
        | zero => rw [rootDistance] at hmq; cases hmq
        | succ L' => exact ⟨L', rfl⟩
      have hfq : ∃ pr, findRole db.role_hierarchy q = some pr := by
        rw [hL'] at hmq
        rw [rootDistance] at hmq
        cases hcase : findRole db.role_hierarchy q with
        | none => rw [hcase] at hmq; cases hmq
        | some pr => exact ⟨pr, rfl⟩
      obtain ⟨pr, hpr⟩ := hfq
      have hprid : pr.role_id = q := by
        have := List.find?_some hpr
        simpa using this
      constructor
      · intro hnone
        rw [hfr'] at hnone
        simp [hparent] at hnone
      · intro p hp
        rw [hfr'] at hp
        simp only [hparent] at hp
        obtain rfl : q = p := by simpa using hp
        refine ⟨{ pr with level := m }, ?_, ?_⟩
        · rw [hmapdef, findRole]
          have hcomm : ∀ a : HRole,
              (((fun b : HRole =>
                  match rootDistance db.role_hierarchy db.role_hierarchy.length b.role_id with
                  | some n => { b with level := n }
                  | none => b) a).role_id == q)
              = (a.role_id == q) := by
            intro a
            cases hcase : rootDistance db.role_hierarchy db.role_hierarchy.length a.role_id <;>
              simp [hcase]
          rw [find?_map_of_pred hcomm]
          rw [show db.role_hierarchy.find? (fun a => a.role_id == q) = some pr from hpr]
          have : rootDistance db.role_hierarchy db.role_hierarchy.length pr.role_id
              = some m := by rw [hprid]; exact hmqL
          simp [this]
        · rw [hfr', hnm]

/-- C5 witness: the create conjunct instantiated on the concrete
counterexample state, exhibiting the stored level 0. -/
theorem role_level_behavior_witness :
    ∃ r, r ∈ (create_role rootOnlyDB childData).2.role_hierarchy ∧
      r.role_id = 2 ∧ r.level = childData.level.getD 0 ∧
      r.parent_role_id = childData.parent_role_id :=
  role_level_behavior.1 rootOnlyDB childData 2 (create_role rootOnlyDB childData).2
    (by decide)


/-! ## C7: the grant upsert -/

/-- The lookup `find?` skips a prefix containing no match. -/
theorem find?_append_none {α : Type} {l l' : List α} {p : α → Bool}
    (h : l.find? p = none) : (l ++ l').find? p = l'.find? p := by
  induction l with
  | nil => rfl
  | cons a t ih =>
    by_cases hpa : p a = true
    · simp [List.find?_cons, hpa] at h
    · have hpa' : p a = false := by simpa using hpa
      simp only [List.find?_cons, hpa'] at h ⊢
      rw [List.cons_append, List.find?_cons, hpa']
      exact ih h

/-- The conflict action never changes a row's key. -/
theorem matchKey_upsertRow (rid pid : Nat) (actor : Option Nat) (m : MapRow) :
    matchKey rid pid (upsertRow rid pid actor m) = matchKey rid pid m := by
  by_cases h : matchKey rid pid m = true
  · rw [upsertRow, if_pos h, h]
    have := h
    rw [matchKey] at this ⊢
    simpa using this
  · rw [upsertRow, if_neg h]

/-- A matching row is updated in place by the conflict action. -/
theorem upsertRow_pos {rid pid : Nat} {actor : Option Nat} {m : MapRow}
    (h : matchKey rid pid m = true) :
    upsertRow rid pid actor m = { m with granted := true, granted_by := actor } := by
  rw [upsertRow, if_pos h]

/-- A non-matching row is left alone by the conflict action. -/
theorem upsertRow_neg {rid pid : Nat} {actor : Option Nat} {m : MapRow}
    (h : matchKey rid pid m = false) : upsertRow rid pid actor m = m := by
  rw [upsertRow, if_neg (by rw [h]; exact Bool.false_ne_true)]

/-- Upserting into a table satisfying the UNIQUE constraint leaves
exactly one row with the key. -/
theorem upsert_filter_length (l : List MapRow) (rid pid : Nat)
    (actor : Option Nat) (now : Int)
    (huniq : (l.filter (matchKey rid pid)).length ≤ 1) :
    ((upsertMapping l rid pid actor now).filter (matchKey rid pid)).length = 1 := by
  unfold upsertMapping
  by_cases hany : l.any (matchKey rid pid) = true
  · rw [if_pos hany, filter_map_of_pred (matchKey_upsertRow rid pid actor),
      List.length_map]
    obtain ⟨a, ha, hpa⟩ := List.any_eq_true.mp hany
    have hmem : a ∈ l.filter (matchKey rid pid) := List.mem_filter.mpr ⟨ha, hpa⟩
    have hpos : 0 < (l.filter (matchKey rid pid)).length :=
      List.length_pos.mpr (List.ne_nil_of_mem hmem)
    omega
  · rw [if_neg hany, List.filter_append]
    have hany' : l.any (matchKey rid pid) = false := by simpa using hany
    have h0 : l.filter (matchKey rid pid) = [] := by
      rw [List.filter_eq_nil_iff]
      intro a ha
      have := List.any_eq_false.mp hany' a ha
      simpa using this
    rw [h0]
    simp [matchKey]

/-- Upserting onto an existing row rewrites `granted` and `granted_by` in
place, leaving `granted_at` and `expires_at` as they were. -/
theorem upsert_find?_exist (l : List MapRow) (rid pid : Nat)
    (actor : Option Nat) (now : Int) (m0 : MapRow)
    (h : l.find? (matchKey rid pid) = some m0) :
    (upsertMapping l rid pid actor now).find? (matchKey rid pid)
      = some { m0 with granted := true, granted_by := actor } := by
  unfold upsertMapping
  have hany : l.any (matchKey rid pid) = true :=
    List.any_eq_true.mpr ⟨m0, List.mem_of_find?_eq_some h, List.find?_some h⟩
  rw [if_pos hany, find?_map_of_pred (matchKey_upsertRow rid pid actor), h,
    Option.map_some', upsertRow_pos (List.find?_some h)]

/-- Upserting with no existing row appends the fresh row with the column
defaults. -/
theorem upsert_find?_new (l : List MapRow) (rid pid : Nat)
    (actor : Option Nat) (now : Int)
    (h : l.find? (matchKey rid pid) = none) :
    (upsertMapping l rid pid actor now).find? (matchKey rid pid)
      = some ⟨rid, pid, true, actor, now, none⟩ := by
  unfold upsertMapping
  have hany : l.any (matchKey rid pid) = false := by
    rw [List.any_eq_false]
    intro a ha
    have := List.find?_eq_none.mp h a ha
    simpa using this
  rw [if_neg (by simp [hany]), find?_append_none h]
  simp [List.find?_cons, matchKey]

/-- The upsert is idempotent. -/
theorem upsert_idem (l : List MapRow) (rid pid : Nat) (actor : Option Nat)
    (now : Int) :
    upsertMapping (upsertMapping l rid pid actor now) rid pid actor now
      = upsertMapping l rid pid actor now := by
  unfold upsertMapping
  by_cases hany : l.any (matchKey rid pid) = true
  · rw [if_pos hany]
    have hany2 : (l.map (upsertRow rid pid actor)).any (matchKey rid pid) = true := by
      obtain ⟨a, ha, hpa⟩ := List.any_eq_true.mp hany
      refine List.any_eq_true.mpr ⟨upsertRow rid pid actor a,
        List.mem_map_of_mem _ ha, ?_⟩
      rw [matchKey_upsertRow]
      exact hpa
    rw [if_pos hany2, List.map_map]
    refine List.map_congr_left fun a _ => ?_
    show upsertRow rid pid actor (upsertRow rid pid actor a) = upsertRow rid pid actor a
    by_cases hpa : matchKey rid pid a = true
    · rw [upsertRow_pos hpa, upsertRow_pos]
      rw [matchKey] at hpa ⊢
      simpa using hpa
    · have hpa' : matchKey rid pid a = false := by simpa using hpa
      rw [upsertRow_neg hpa', upsertRow_neg hpa']
  · rw [if_neg hany]
    have hany' : l.any (matchKey rid pid) = false := by simpa using hany
    have hanynew : ((l ++ [(⟨rid, pid, true, actor, now, none⟩ : MapRow)]).any
        (matchKey rid pid)) = true :=
      List.any_eq_true.mpr ⟨⟨rid, pid, true, actor, now, none⟩, by simp,
        by simp [matchKey]⟩
    rw [if_pos hanynew, List.map_append]
    have hid : l.map (upsertRow rid pid actor) = l :=
      map_eq_self_of fun a ha =>
        upsertRow_neg (List.any_eq_false.mp hany' a ha |> fun hh => by simpa using hh)
    rw [hid]
    have : upsertRow rid pid actor ⟨rid, pid, true, actor, now, none⟩
        = ⟨rid, pid, true, actor, now, none⟩ := by
      rw [upsertRow_pos (by simp [matchKey])]
    simp [this]

/-- C7 counterexample: `regrantDB` holds one grant row for `(role 1,
perm.x)` with `granted_by = some 1` and `expires_at = some 99`.  Two
identical grant calls (actor 2, at time 5, the source function carrying
no expiry argument at all) leave exactly one row and refresh
`granted_by` to `some 2`, but the row's `expires_at` is still the stale
`some 99` - it is not refreshed, contradicting the claim. -/
theorem regrant_expiry_cex :
    (assign_permissions_to_role
        (assign_permissions_to_role regrantDB 1 ["perm.x"] (some 2) 5).2
        1 ["perm.x"] (some 2) 5).2.role_permissions_mapping
      = [⟨1, 1, true, some 2, 0, some 99⟩] ∧
    ((⟨1, 1, true, some 2, 0, some 99⟩ : MapRow).expires_at = some 99 ∧
      some (99 : Int) ≠ none) := by
  refine ⟨by decide, by decide, by decide⟩

/-- C7 amended: a single-key grant is an idempotent upsert keyed by
`(role_id, permission_id)`: both calls succeed, the second changes no
mapping row, exactly one row with the key remains; re-granting an
existing row sets `granted := true` and refreshes `granted_by`, leaving
`granted_at` and `expires_at` unchanged (the function takes no expiry
argument), while a fresh grant inserts the row with `expires_at = none`. -/
theorem grant_idempotent_upsert
    (db : ConfigDB) (rid : Nat) (k : String) (prow : PermReg)
    (actor : Option Nat) (now : Int)
    (hok : db.store_ok = true)
    (hfind : db.permission_registry.find? (fun p => p.permission_key == k) = some prow)
    (huniq : (db.role_permissions_mapping.filter
        (matchKey rid prow.permission_id)).length ≤ 1) :
    (assign_permissions_to_role db rid [k] actor now).1 = true ∧
    (assign_permissions_to_role (assign_permissions_to_role db rid [k] actor now).2
        rid [k] actor now).1 = true ∧
    (assign_permissions_to_role (assign_permissions_to_role db rid [k] actor now).2
        rid [k] actor now).2.role_permissions_mapping
      = (assign_permissions_to_role db rid [k] actor now).2.role_permissions_mapping ∧
    ((assign_permissions_to_role db rid [k] actor now).2.role_permissions_mapping.filter
        (matchKey rid prow.permission_id)).length = 1 ∧
    (∀ m0, db.role_permissions_mapping.find? (matchKey rid prow.permission_id) = some m0 →
       (assign_permissions_to_role db rid [k] actor now).2.role_permissions_mapping.find?
           (matchKey rid prow.permission_id)
         = some { m0 with granted := true, granted_by := actor }) ∧
    (db.role_permissions_mapping.find? (matchKey rid prow.permission_id) = none →
       (assign_permissions_to_role db rid [k] actor now).2.role_permissions_mapping.find?
           (matchKey rid prow.permission_id)
         = some ⟨rid, prow.permission_id, true, actor, now, none⟩) := by
  have hkeq : prow.permission_key = k := by
    have := List.find?_some hfind
    simpa using this
  have hne : ((db.permission_registry.filter fun p =>
      [k].contains p.permission_key).isEmpty) = false := by
    by_cases hE : ((db.permission_registry.filter fun p =>
        [k].contains p.permission_key).isEmpty) = true
    · exfalso
      have hnil := List.isEmpty_iff.mp hE
      have hmem : prow ∈ db.permission_registry := List.mem_of_find?_eq_some hfind
      have := List.filter_eq_nil_iff.mp hnil prow hmem
      apply this
      simp [hkeq]
    · simpa using hE
  have hstep : ∀ d : ConfigDB, d.store_ok = true →
      d.permission_registry = db.permission_registry →
      assign_permissions_to_role d rid [k] actor now
        = (true, { d with
            role_permissions_mapping :=
              upsertMapping d.role_permissions_mapping rid prow.permission_id actor now
            audit := d.audit ++ [⟨"assign_permissions", some rid, actor⟩] }) := by
    intro d hdok hdreg
    rw [assign_permissions_to_role, if_neg (by simp [hdok]),
      if_neg (by rw [hdreg, hne]; exact Bool.false_ne_true)]
    simp only [List.foldl_cons, List.foldl_nil, hdreg, hfind]
  have h1 := hstep db hok rfl
  have h2 := hstep ({ db with
      role_permissions_mapping :=
        upsertMapping db.role_permissions_mapping rid prow.permission_id actor now
      audit := db.audit ++ [⟨"assign_permissions", some rid, actor⟩] }) hok rfl
  refine ⟨by simp [h1], by simp [h1, h2], ?_, ?_, ?_, ?_⟩
  · simp only [h1]
    simp only [h2]
    simp [upsert_idem]
  · simp only [h1]
    exact upsert_filter_length _ _ _ _ _ huniq
  · intro m0 hm0
    simp only [h1]
    exact upsert_find?_exist _ _ _ _ _ _ hm0
  · intro hnone
    simp only [h1]
    exact upsert_find?_new _ _ _ _ _ hnone

/-- C7 witness: the upsert properties instantiated on the concrete
re-grant state. -/
theorem grant_idempotent_upsert_witness :
    (assign_permissions_to_role regrantDB 1 ["perm.x"] (some 2) 5).1 = true ∧
    (assign_permissions_to_role
        (assign_permissions_to_role regrantDB 1 ["perm.x"] (some 2) 5).2
        1 ["perm.x"] (some 2) 5).1 = true ∧
    (assign_permissions_to_role
        (assign_permissions_to_role regrantDB 1 ["perm.x"] (some 2) 5).2
        1 ["perm.x"] (some 2) 5).2.role_permissions_mapping
      = (assign_permissions_to_role regrantDB 1 ["perm.x"] (some 2) 5).2.role_permissions_mapping ∧
    ((assign_permissions_to_role regrantDB 1 ["perm.x"] (some 2) 5).2.role_permissions_mapping.filter
        (matchKey 1 (⟨1, "perm.x"⟩ : PermReg).permission_id)).length = 1 ∧
    (∀ m0, regrantDB.role_permissions_mapping.find?
          (matchKey 1 (⟨1, "perm.x"⟩ : PermReg).permission_id) = some m0 →
       (assign_permissions_to_role regrantDB 1 ["perm.x"] (some 2) 5).2.role_permissions_mapping.find?
           (matchKey 1 (⟨1, "perm.x"⟩ : PermReg).permission_id)
         = some { m0 with granted := true, granted_by := some 2 }) ∧
    (regrantDB.role_permissions_mapping.find?
        (matchKey 1 (⟨1, "perm.x"⟩ : PermReg).permission_id) = none →
       (assign_permissions_to_role regrantDB 1 ["perm.x"] (some 2) 5).2.role_permissions_mapping.find?
           (matchKey 1 (⟨1, "perm.x"⟩ : PermReg).permission_id)
         = some ⟨1, (⟨1, "perm.x"⟩ : PermReg).permission_id, true, some 2, 5, none⟩) :=
  grant_idempotent_upsert regrantDB 1 "perm.x" ⟨1, "perm.x"⟩ (some 2) 5
    rfl (by decide) (by decide)
